import Mathlib

/-!
# Verification of the rrd / librpgmaker asset codec core

Shallow embedding of the byte-level core of `librpgmaker` (the RpgMaker
asset "encryption" codec) and its configuration accessor, with proofs of
the specified properties.

Bytes are modelled as `Nat` (all source operations are `u8` XORs, which
never overflow), byte buffers as `List Nat`, and filesystem paths as
opaque `String`s that are merely carried along.  Rust `panic!`s
(out-of-range `split_at_mut` / slice indexing, remainder by zero) are
modelled by an explicit `panicked` outcome of the result type, so that
"returns an error" and "faults" are distinguishable propositions.
-/

/-- Outcome of a fallible source operation: a Rust panic (fault), an
`Err` return, or an `Ok` return. -/
inductive PResult (ε α : Type) where
  | panicked : PResult ε α
  | err : ε → PResult ε α
  | ok : α → PResult ε α
  deriving DecidableEq, Repr

/-- Whether a `PResult` is an `ok` value. -/
def PResult.isOk {ε α : Type} : PResult ε α → Bool
  | .ok _ => true
  | _ => false

/-- The classification of a decryptable RpgMaker file (`RpgFileType`). -/
inductive RpgFileType where
  | Audio
  | Video
  | Image
  deriving DecidableEq, Repr

/-- The subset of the library's `Error` enum reachable from the byte
transforms and the config queries modelled here. -/
inductive RpgError where
  | FileTooShort (path : String)
  | SystemJsonInvalidKey (key : String)
  deriving DecidableEq, Repr

/-- `RpgFile`: byte buffer, kind, and the two carried paths.  The Rust
type-state parameter (`Encrypted`/`Decrypted`) is a phantom and has no
runtime content, so it is dropped from the state; each transform below
corresponds to the `impl` block of one state. -/
structure RpgFile where
  data : List Nat
  file_type : RpgFileType
  decrypted_path : String
  encrypted_path : String
  deriving DecidableEq, Repr

/-- The fake 16-byte header inserted into "encrypted" RpgMaker files
(`RPG_HEADER`). -/
def RPG_HEADER : List Nat :=
  [0x52, 0x50, 0x47, 0x4D, 0x56, 0x00, 0x00, 0x00,
   0x00, 0x03, 0x01, 0x00, 0x00, 0x00, 0x00, 0x00]

/-- The valid 16-byte PNG header spliced in by `restore_img`
(`PNG_HEADER`). -/
def PNG_HEADER : List Nat :=
  [0x89, 0x50, 0x4E, 0x47, 0xD, 0xA, 0x1A, 0xA,
   0x0, 0x0, 0x0, 0xD, 0x49, 0x48, 0x44, 0x52]

/-- The repeating-key byte `key[i % key.len()]` (meaningful for
non-empty `key`; the out-of-range default 0 is never reached then). -/
def keyAt (key : List Nat) (i : Nat) : Nat :=
  key.getD (i % key.length) 0

/-- The XOR loop body of `rpg_xor`, carrying the running index `i`:
element `d` at index `i` becomes `d ^ key[i % key.len()]`. -/
def xorFrom (key : List Nat) : Nat → List Nat → List Nat
  | _, [] => []
  | i, d :: rest => Nat.xor d (keyAt key i) :: xorFrom key (i + 1) rest

/-- `rpg_xor`'s pure transform, indices starting at 0. -/
def xorWith (data key : List Nat) : List Nat :=
  xorFrom key 0 data

/-- `rpg_xor(data, key)`: XOR every byte with the repeating key.
`key.len() == 0` makes `i % key.len()` a remainder by zero, which
panics on the first iteration — i.e. whenever `data` is non-empty;
`none` models that panic. -/
def rpg_xor (data key : List Nat) : Option (List Nat) :=
  if data.length ≠ 0 ∧ key.length = 0 then none
  else some (xorWith data key)

/-- `RpgFile::<Encrypted>::decrypt`: reject buffers of ≤ 32 bytes with
`FileTooShort(encrypted_path)`, drop the 16-byte RPG header
(`drain(0..16)`), XOR the next 16 bytes (now the first 16) with the
key, keep the rest. -/
def decrypt (f : RpgFile) (key : List Nat) : PResult RpgError RpgFile :=
  if f.data.length ≤ 32 then .err (.FileTooShort f.encrypted_path)
  else
    match rpg_xor ((f.data.drop 16).take 16) key with
    | none => .panicked
    | some h =>
      .ok ⟨h ++ (f.data.drop 16).drop 16,
           f.file_type, f.decrypted_path, f.encrypted_path⟩

/-- `RpgFile::<Decrypted>::encrypt`: `split_at_mut(16)` panics when the
buffer is shorter than 16 bytes (there is no length guard in the
source); otherwise XOR the first 16 bytes with the key and prepend
`RPG_HEADER`.  The source performs no magic-header check and never
returns an `Err`. -/
def encrypt (f : RpgFile) (key : List Nat) : PResult RpgError RpgFile :=
  if f.data.length < 16 then .panicked
  else
    match rpg_xor (f.data.take 16) key with
    | none => .panicked
    | some h =>
      .ok ⟨RPG_HEADER ++ (h ++ f.data.drop 16),
           f.file_type, f.decrypted_path, f.encrypted_path⟩

/-- `RpgFile::<Encrypted>::restore_img`: panic on non-image files,
reject buffers of ≤ 32 bytes with `FileTooShort(encrypted_path)`,
drop the RPG header and splice `PNG_HEADER` over the next 16 bytes. -/
def restore_img (f : RpgFile) : PResult RpgError RpgFile :=
  if f.file_type ≠ RpgFileType.Image then .panicked
  else if f.data.length ≤ 32 then .err (.FileTooShort f.encrypted_path)
  else
    .ok ⟨PNG_HEADER ++ (f.data.drop 16).drop 16,
         f.file_type, f.decrypted_path, f.encrypted_path⟩

/-- `char::to_digit(16)`: hex digit value of a character, `none` for
non-hex characters. -/
def hexDigit (c : Char) : Option Nat :=
  if '0' ≤ c ∧ c ≤ '9' then some (c.toNat - '0'.toNat)
  else if 'a' ≤ c ∧ c ≤ 'f' then some (c.toNat - 'a'.toNat + 10)
  else if 'A' ≤ c ∧ c ≤ 'F' then some (c.toNat - 'A'.toNat + 10)
  else none

/-- `u8::from_str_radix(s, 16)` on a 2-character chunk: a leading `'+'`
is accepted as a sign (Rust's integer parser allows it; `'-'` is not a
valid start for an unsigned type), after which every character must be
a hex digit.  Two hex digits can never overflow `u8`. -/
def fromStrRadix2 (a b : Char) : Option Nat :=
  if a = '+' then hexDigit b
  else
    match hexDigit a, hexDigit b with
    | some x, some y => some (16 * x + y)
    | _, _ => none

/-- `decode_hex`: iterate `i = 0, 2, 4, ...` over the string, parsing
`&s[i..i+2]` as a hex byte and collecting into a `Result`, which
short-circuits at the first parse error.  When only one character
remains, the slice `&s[i..i+2]` is out of bounds and panics. -/
def decode_hex : List Char → PResult Unit (List Nat)
  | [] => .ok []
  | [_] => .panicked
  | a :: b :: rest =>
    match fromStrRadix2 a b with
    | none => .err ()
    | some v =>
      match decode_hex rest with
      | .panicked => .panicked
      | .err e => .err e
      | .ok vs => .ok (v :: vs)

/-- A JSON value as far as the encryption-flag queries can observe it:
a boolean, or anything else (`as_bool` returns `None` on it). -/
inductive JValue where
  | vBool (b : Bool)
  | vOther
  deriving DecidableEq, Repr

/-- `hasEncryptedAudio`. -/
def HAS_ENC_AUIDO_KEY : String := "hasEncryptedAudio"

/-- `hasEncryptedImages`. -/
def HAS_ENC_IMG_KEY : String := "hasEncryptedImages"

/-- The inner closure `get_key` of `check_encrypted`:
`value.get(key).unwrap_or(&Value::Bool(false)).as_bool()` — a missing
field defaults to `false`, a present boolean is returned, a present
non-boolean makes `as_bool` fail, surfaced as
`SystemJsonInvalidKey { key }`. -/
def get_key_flag (value : List (String × JValue)) (k : String) :
    Except RpgError Bool :=
  match (value.lookup k).getD (JValue.vBool false) with
  | .vBool b => .ok b
  | .vOther => .error (.SystemJsonInvalidKey k)

/-- `check_encrypted`: the audio flag OR the images flag, each read via
`get_key_flag`, errors propagating in that order. -/
def check_encrypted (value : List (String × JValue)) : Except RpgError Bool :=
  match get_key_flag value HAS_ENC_AUIDO_KEY with
  | .error e => .error e
  | .ok audio =>
    match get_key_flag value HAS_ENC_IMG_KEY with
    | .error e => .error e
    | .ok img => .ok (audio || img)

/-- The spec-side reading of one declared-encryption field: the field
resolves to `v` when it is absent (then `v = false`) or present as the
boolean `v`. -/
def flagResolves (value : List (String × JValue)) (k : String) (v : Bool) : Prop :=
  (value.lookup k = none ∧ v = false) ∨ value.lookup k = some (JValue.vBool v)

/-! ## Concrete files used by witnesses and counterexamples -/

/-- A 33-byte file in the decrypted (plain) state. -/
def exDec : RpgFile := ⟨List.replicate 33 7, .Image, "a.png", "a.rpgmvp"⟩

/-- A 33-byte file in the encrypted state (magic header + 17 bytes). -/
def exEnc : RpgFile := ⟨RPG_HEADER ++ List.replicate 17 5, .Image, "a.png", "a.rpgmvp"⟩

/-- A file whose buffer is exactly the 16-byte magic header. -/
def exMagic : RpgFile := ⟨RPG_HEADER, .Image, "a.png", "a.rpgmvp"⟩

/-- A 3-byte file (shorter than one header). -/
def exShort : RpgFile := ⟨[0, 1, 2], .Image, "a.png", "a.rpgmvp"⟩

/-- A file with an empty buffer. -/
def exEmpty : RpgFile := ⟨[], .Audio, "b.ogg", "b.rpgmvo"⟩

/-- A 32-byte file (at the decrypt length boundary). -/
def ex32 : RpgFile := ⟨List.replicate 32 1, .Audio, "c.ogg", "c.rpgmvo"⟩

/-- A 20-byte image file (too short for restore). -/
def exImgShort : RpgFile := ⟨List.replicate 20 3, .Image, "d.png", "d.rpgmvp"⟩

/-- A 40-byte audio file (wrong kind for restore). -/
def exAudio : RpgFile := ⟨List.replicate 40 3, .Audio, "e.ogg", "e.rpgmvo"⟩

/-- The output of `decrypt exDec [7]` (all 33 bytes are 7, the key byte
is 7, so the recovered inner header is 16 zero bytes). -/
def exDecOut : RpgFile := ⟨List.replicate 16 0 ++ [7], .Image, "a.png", "a.rpgmvp"⟩

/-! ## Helper lemmas about the XOR primitive -/

theorem xorFrom_length (key : List Nat) (i : Nat) (data : List Nat) :
    (xorFrom key i data).length = data.length := by
  induction data generalizing i with
  | nil => rfl
  | cons d rest ih => simp [xorFrom, ih]

theorem xorWith_length (data key : List Nat) :
    (xorWith data key).length = data.length :=
  xorFrom_length key 0 data

/-- XOR with the repeating key is an involution at every starting index. -/
theorem xorFrom_xorFrom (key : List Nat) (i : Nat) (data : List Nat) :
    xorFrom key i (xorFrom key i data) = data := by
  induction data generalizing i with
  | nil => rfl
  | cons d rest ih =>
    show ((d ^^^ keyAt key i) ^^^ keyAt key i) ::
        xorFrom key (i + 1) (xorFrom key (i + 1) rest) = d :: rest
    rw [Nat.xor_cancel_right, ih]

theorem xorWith_xorWith (data key : List Nat) :
    xorWith (xorWith data key) key = data :=
  xorFrom_xorFrom key 0 data

/-- Element `i` of the XOR transform started at index `j`. -/
theorem xorFrom_getElem? (key : List Nat) (j i : Nat) (data : List Nat) :
    (xorFrom key j data)[i]? =
      (data[i]?).map (fun d => Nat.xor d (keyAt key (j + i))) := by
  induction data generalizing j i with
  | nil => simp [xorFrom]
  | cons d rest ih =>
    cases i with
    | zero => simp [xorFrom]
    | succ n =>
      have harith : j + 1 + n = j + (n + 1) := by omega
      simp [xorFrom, ih (j + 1) n, harith]

/-- A non-empty key never makes `rpg_xor` panic. -/
theorem rpg_xor_of_ne (data key : List Nat) (hk : key ≠ []) :
    rpg_xor data key = some (xorWith data key) := by
  unfold rpg_xor
  rw [if_neg]
  rintro ⟨-, h0⟩
  exact hk (List.length_eq_zero.mp h0)

/-- An empty key makes `rpg_xor` panic on any non-empty slice. -/
theorem rpg_xor_nil (data : List Nat) (hd : data.length ≠ 0) :
    rpg_xor data [] = none := by
  unfold rpg_xor
  rw [if_pos ⟨hd, rfl⟩]

/-! ## Helper lemmas about the transforms -/

/-- The buffer produced by a successful `decrypt`, as a pure function. -/
def decryptBuf (data key : List Nat) : List Nat :=
  xorWith ((data.drop 16).take 16) key ++ (data.drop 16).drop 16

/-- The buffer produced by a successful `encrypt`, as a pure function. -/
def encryptBuf (data key : List Nat) : List Nat :=
  RPG_HEADER ++ (xorWith (data.take 16) key ++ data.drop 16)

/-- The successful branch of `decrypt`, in closed form. -/
theorem decrypt_ok (f : RpgFile) (key : List Nat)
    (h32 : 32 < f.data.length) (hk : key ≠ []) :
    decrypt f key =
      .ok ⟨decryptBuf f.data key,
           f.file_type, f.decrypted_path, f.encrypted_path⟩ := by
  unfold decrypt decryptBuf
  rw [if_neg (by omega), rpg_xor_of_ne _ _ hk]

/-- The successful branch of `encrypt`, in closed form. -/
theorem encrypt_ok (f : RpgFile) (key : List Nat)
    (h16 : 16 ≤ f.data.length) (hk : key ≠ []) :
    encrypt f key =
      .ok ⟨encryptBuf f.data key,
           f.file_type, f.decrypted_path, f.encrypted_path⟩ := by
  unfold encrypt encryptBuf
  rw [if_neg (by omega), rpg_xor_of_ne _ _ hk]

theorem RPG_HEADER_length : RPG_HEADER.length = 16 := rfl

theorem length_encryptBuf (d key : List Nat) (h16 : 16 ≤ d.length) :
    (encryptBuf d key).length = d.length + 16 := by
  simp only [encryptBuf, List.length_append, RPG_HEADER_length,
    xorWith_length, List.length_take, List.length_drop]
  omega

theorem length_decryptBuf (d key : List Nat) (h32 : 32 < d.length) :
    (decryptBuf d key).length = d.length - 16 := by
  simp only [decryptBuf, List.length_append,
    xorWith_length, List.length_take, List.length_drop]
  omega

/-- Decrypting an encrypted buffer gives the buffer back. -/
theorem decryptBuf_encryptBuf (d key : List Nat) (h16 : 16 ≤ d.length) :
    decryptBuf (encryptBuf d key) key = d := by
  unfold decryptBuf encryptBuf
  have hxlen : (xorWith (d.take 16) key).length = 16 := by
    rw [xorWith_length, List.length_take]
    omega
  rw [List.drop_left' RPG_HEADER_length, List.take_left' hxlen,
    List.drop_left' hxlen, xorWith_xorWith, List.take_append_drop]

/-- Encrypting a decrypted buffer that began with the magic header gives
the buffer back. -/
theorem encryptBuf_decryptBuf (d key : List Nat) (h32 : 32 < d.length)
    (hh : d.take 16 = RPG_HEADER) :
    encryptBuf (decryptBuf d key) key = d := by
  unfold decryptBuf encryptBuf
  have hxlen : (xorWith ((d.drop 16).take 16) key).length = 16 := by
    rw [xorWith_length, List.length_take, List.length_drop]
    omega
  rw [List.take_left' hxlen, List.drop_left' hxlen, xorWith_xorWith,
    List.take_append_drop, ← hh, List.take_append_drop]

/-! ## C1 / C2: the transforms, functionally -/

/-- C1: with `key ≠ []` and `32 < |B|`, the transforms are mutually
inverse: `decrypt (encrypt B) = B` for a buffer in the decrypted state,
and `encrypt (decrypt B) = B` for a buffer in the encrypted
(magic-header-prefixed) state, each transform succeeding along the
way. -/
theorem C1_round_trip (f : RpgFile) (key : List Nat)
    (h32 : 32 < f.data.length) (hk : key ≠ []) :
    (∃ g, encrypt f key = .ok g ∧ decrypt g key = .ok f) ∧
    (f.data.take 16 = RPG_HEADER →
      ∃ g, decrypt f key = .ok g ∧ encrypt g key = .ok f) := by
  constructor
  · refine ⟨⟨encryptBuf f.data key, f.file_type, f.decrypted_path,
      f.encrypted_path⟩, encrypt_ok f key (by omega) hk, ?_⟩
    have hlen : 32 < (encryptBuf f.data key).length := by
      rw [length_encryptBuf f.data key (by omega)]
      omega
    rw [decrypt_ok ⟨encryptBuf f.data key, f.file_type, f.decrypted_path,
      f.encrypted_path⟩ key hlen hk]
    show PResult.ok (⟨decryptBuf (encryptBuf f.data key) key, f.file_type,
      f.decrypted_path, f.encrypted_path⟩ : RpgFile) = .ok f
    rw [decryptBuf_encryptBuf f.data key (by omega)]
  · intro hh
    refine ⟨⟨decryptBuf f.data key, f.file_type, f.decrypted_path,
      f.encrypted_path⟩, decrypt_ok f key h32 hk, ?_⟩
    have hlen : 16 ≤ (decryptBuf f.data key).length := by
      rw [length_decryptBuf f.data key h32]
      omega
    rw [encrypt_ok ⟨decryptBuf f.data key, f.file_type, f.decrypted_path,
      f.encrypted_path⟩ key hlen hk]
    show PResult.ok (⟨encryptBuf (decryptBuf f.data key) key, f.file_type,
      f.decrypted_path, f.encrypted_path⟩ : RpgFile) = .ok f
    rw [encryptBuf_decryptBuf f.data key h32 hh]

theorem C1_round_trip_witness :
    (∃ g, encrypt exDec [7] = .ok g ∧ decrypt g [7] = .ok exDec) ∧
    (∃ g, decrypt exEnc [7] = .ok g ∧ encrypt g [7] = .ok exEnc) :=
  ⟨(C1_round_trip exDec [7] (by decide) (by decide)).1,
   (C1_round_trip exEnc [7] (by decide) (by decide)).2 (by decide)⟩

/-- C2: a successful `decrypt` removes the first 16 bytes, XORs the next
16 (the inner header) with `key[i % key.length]` position by position,
and carries every byte from position 32 of the input onward over
unchanged. -/
theorem C2_decrypt_shape (f : RpgFile) (key : List Nat)
    (h32 : 32 < f.data.length) (hk : key ≠ []) :
    ∃ g, decrypt f key = .ok g ∧
      g.data.length + 16 = f.data.length ∧
      (∀ i, i < 16 →
        g.data[i]? = (f.data[16 + i]?).map
          (fun d => Nat.xor d (key.getD (i % key.length) 0))) ∧
      g.data.drop 16 = f.data.drop 32 := by
  have hxlen : (xorWith ((f.data.drop 16).take 16) key).length = 16 := by
    rw [xorWith_length, List.length_take, List.length_drop]
    omega
  refine ⟨⟨decryptBuf f.data key, f.file_type, f.decrypted_path,
    f.encrypted_path⟩, decrypt_ok f key h32 hk, ?_, ?_, ?_⟩
  · show (decryptBuf f.data key).length + 16 = f.data.length
    rw [length_decryptBuf f.data key h32]
    omega
  · intro i hi
    show (decryptBuf f.data key)[i]? = _
    unfold decryptBuf
    rw [List.getElem?_append, hxlen, if_pos hi]
    unfold xorWith
    rw [xorFrom_getElem?, List.getElem?_take, if_pos hi, List.getElem?_drop]
    simp [keyAt]
  · show (decryptBuf f.data key).drop 16 = f.data.drop 32
    unfold decryptBuf
    rw [List.drop_left' hxlen, List.drop_drop]

theorem C2_decrypt_shape_witness :
    ∃ g, decrypt exEnc [9, 4] = .ok g ∧
      g.data.length + 16 = exEnc.data.length ∧
      (∀ i, i < 16 →
        g.data[i]? = (exEnc.data[16 + i]?).map
          (fun d => Nat.xor d ([9, 4].getD (i % [9, 4].length) 0))) ∧
      g.data.drop 16 = exEnc.data.drop 32 :=
  C2_decrypt_shape exEnc [9, 4] (by decide) (by decide)

/-! ## C4 / C5 / C6: length and key guards -/

/-- C4 (counterexample): `encrypt` on a 3-byte buffer faults (the
`split_at_mut(16)` call is out of range) instead of returning
`FileTooShort`. -/
theorem C4_counterexample : encrypt exShort [1] = PResult.panicked := by decide

/-- C4 (amended): `encrypt` performs no length check; on every buffer
shorter than 16 bytes it panics at `split_at_mut(16)`, for every key. -/
theorem C4_encrypt_short_panics (f : RpgFile) (key : List Nat)
    (h : f.data.length < 16) : encrypt f key = PResult.panicked := by
  unfold encrypt
  rw [if_pos h]

theorem C4_encrypt_short_panics_witness :
    encrypt exEmpty [9] = PResult.panicked :=
  C4_encrypt_short_panics exEmpty [9] (by decide)

/-- C5: `decrypt` on a buffer of 32 bytes or fewer fails with
`FileTooShort` carrying the file's encrypted path; on 33 bytes or more
with a non-empty key it succeeds. -/
theorem C5_decrypt_boundary (f : RpgFile) (key : List Nat) :
    (f.data.length ≤ 32 →
      decrypt f key = .err (.FileTooShort f.encrypted_path)) ∧
    (32 < f.data.length → key ≠ [] → ∃ g, decrypt f key = .ok g) := by
  constructor
  · intro h
    unfold decrypt
    rw [if_pos h]
  · intro h hk
    exact ⟨_, decrypt_ok f key h hk⟩

theorem C5_decrypt_boundary_witness :
    decrypt ex32 [7] = .err (.FileTooShort "c.rpgmvo") ∧
    ∃ g, decrypt exDec [7] = .ok g :=
  ⟨(C5_decrypt_boundary ex32 [7]).1 (by decide),
   (C5_decrypt_boundary exDec [7]).2 (by decide) (by decide)⟩

/-- C6 (counterexample): `decrypt` with an empty key on a 33-byte buffer
faults (remainder by zero inside `rpg_xor`); there is no
`InvalidKeyError` rejection. -/
theorem C6_counterexample : decrypt exDec [] = PResult.panicked := by decide

/-- C6 (amended): no zero-length-key guard exists; with an empty key,
`decrypt` on any buffer longer than 32 bytes and `encrypt` on any
buffer of at least 16 bytes reach the XOR primitive and fault with a
remainder-by-zero panic. -/
theorem C6_empty_key_faults (f : RpgFile) :
    (32 < f.data.length → decrypt f [] = PResult.panicked) ∧
    (16 ≤ f.data.length → encrypt f [] = PResult.panicked) := by
  constructor
  · intro h
    unfold decrypt
    rw [if_neg (by omega), rpg_xor_nil]
    rw [List.length_take, List.length_drop]
    omega
  · intro h
    unfold encrypt
    rw [if_neg (by omega), rpg_xor_nil]
    rw [List.length_take]
    omega

theorem C6_empty_key_faults_witness :
    decrypt exEnc [] = PResult.panicked ∧ encrypt exEnc [] = PResult.panicked :=
  ⟨(C6_empty_key_faults exEnc).1 (by decide),
   (C6_empty_key_faults exEnc).2 (by decide)⟩

/-! ## C3: no idempotence guard on encrypt -/

/-- C3 (counterexample): `encrypt` on a buffer that is exactly the
magic header succeeds (with key byte 0 the XOR is the identity) and
yields the magic header twice — it double-wraps silently instead of
failing with an `AlreadyObfuscatedError` (no such variant exists). -/
theorem C3_counterexample :
    encrypt exMagic [0] =
      .ok ⟨RPG_HEADER ++ RPG_HEADER, .Image, "a.png", "a.rpgmvp"⟩ := by decide

/-- C3 (amended): `encrypt` performs no magic-header check: on every
buffer that already begins with the magic header, with any non-empty
key, it succeeds and prepends the header a second time (the old header
is XORed into the new inner-header position). -/
theorem C3_no_idempotence_guard (f : RpgFile) (key : List Nat)
    (hh : f.data.take 16 = RPG_HEADER) (hk : key ≠ []) :
    ∃ g, encrypt f key = .ok g ∧
      g.data = RPG_HEADER ++ (xorWith RPG_HEADER key ++ f.data.drop 16) := by
  have h16 : 16 ≤ f.data.length := by
    have := congrArg List.length hh
    rw [List.length_take, RPG_HEADER_length] at this
    omega
  refine ⟨_, encrypt_ok f key h16 hk, ?_⟩
  show encryptBuf f.data key = RPG_HEADER ++ (xorWith RPG_HEADER key ++ f.data.drop 16)
  unfold encryptBuf
  rw [hh]

theorem C3_no_idempotence_guard_witness :
    ∃ g, encrypt exMagic [1] = .ok g ∧
      g.data = RPG_HEADER ++ (xorWith RPG_HEADER [1] ++ exMagic.data.drop 16) :=
  C3_no_idempotence_guard exMagic [1] (by decide) (by decide)

/-! ## C7: key-less image restore -/

/-- C7: on an Image file longer than 32 bytes, `restore_img` always
returns the fixed 16-byte PNG header followed by the input's bytes from
position 32 onward (no key involved); on an Image file of 32 bytes or
fewer it fails with `FileTooShort` carrying the encrypted path; on a
non-Image file it is a contract violation (a panic, not an error). -/
theorem C7_restore_img_spec (f : RpgFile) :
    (f.file_type = RpgFileType.Image → 32 < f.data.length →
      restore_img f = .ok ⟨PNG_HEADER ++ f.data.drop 32,
        f.file_type, f.decrypted_path, f.encrypted_path⟩) ∧
    (f.file_type = RpgFileType.Image → f.data.length ≤ 32 →
      restore_img f = .err (.FileTooShort f.encrypted_path)) ∧
    (f.file_type ≠ RpgFileType.Image → restore_img f = PResult.panicked) := by
  refine ⟨?_, ?_, ?_⟩
  · intro himg hlen
    unfold restore_img
    rw [if_neg (by simp [himg]), if_neg (by omega), List.drop_drop]
  · intro himg hlen
    unfold restore_img
    rw [if_neg (by simp [himg]), if_pos hlen]
  · intro hne
    unfold restore_img
    rw [if_pos hne]

theorem C7_restore_img_spec_witness :
    restore_img exEnc = .ok ⟨PNG_HEADER ++ exEnc.data.drop 32,
      exEnc.file_type, exEnc.decrypted_path, exEnc.encrypted_path⟩ ∧
    restore_img exImgShort = .err (.FileTooShort exImgShort.encrypted_path) ∧
    restore_img exAudio = PResult.panicked :=
  ⟨(C7_restore_img_spec exEnc).1 (by decide) (by decide),
   (C7_restore_img_spec exImgShort).2.1 (by decide) (by decide),
   (C7_restore_img_spec exAudio).2.2 (by decide)⟩

/-! ## C10: the frame of the three transforms -/

/-- C10: every successful `decrypt`, `encrypt` or `restore_img` call
returns a file whose kind and both carried paths are identical to the
input's; only the byte buffer (and the phantom state) change. -/
theorem C10_transforms_preserve_frame (f g : RpgFile) (key : List Nat)
    (h : decrypt f key = .ok g ∨ encrypt f key = .ok g ∨
      restore_img f = .ok g) :
    g.file_type = f.file_type ∧ g.decrypted_path = f.decrypted_path ∧
      g.encrypted_path = f.encrypted_path := by
  rcases h with h | h | h
  · unfold decrypt at h
    split at h
    · exact absurd h (by simp)
    · split at h
      · exact absurd h (by simp)
      · injection h with h
        subst h
        exact ⟨rfl, rfl, rfl⟩
  · unfold encrypt at h
    split at h
    · exact absurd h (by simp)
    · split at h
      · exact absurd h (by simp)
      · injection h with h
        subst h
        exact ⟨rfl, rfl, rfl⟩
  · unfold restore_img at h
    split at h
    · exact absurd h (by simp)
    · split at h
      · exact absurd h (by simp)
      · injection h with h
        subst h
        exact ⟨rfl, rfl, rfl⟩

theorem C10_transforms_preserve_frame_witness :
    exDecOut.file_type = exDec.file_type ∧
    exDecOut.decrypted_path = exDec.decrypted_path ∧
    exDecOut.encrypted_path = exDec.encrypted_path :=
  C10_transforms_preserve_frame exDec exDecOut [7] (Or.inl (by decide))

/-! ## C8: hex key decoding -/

/-- A chunk of two hex digits always parses. -/
theorem fromStrRadix2_isSome (a b : Char) (ha : (hexDigit a).isSome)
    (hb : (hexDigit b).isSome) : (fromStrRadix2 a b).isSome := by
  unfold fromStrRadix2
  split
  · exact hb
  · obtain ⟨x, hx⟩ := Option.isSome_iff_exists.mp ha
    obtain ⟨y, hy⟩ := Option.isSome_iff_exists.mp hb
    rw [hx, hy]
    rfl

/-- A chunk containing a character that is neither a hex digit nor the
sign `'+'` fails to parse. -/
theorem fromStrRadix2_none (a b c : Char) (hc1 : hexDigit c = none)
    (hc2 : c ≠ '+') (hab : c = a ∨ c = b) : fromStrRadix2 a b = none := by
  unfold fromStrRadix2
  rcases hab with rfl | rfl
  · rw [if_neg hc2, hc1]
  · split
    · exact hc1
    · rw [hc1]
      cases hexDigit a <;> rfl

/-- On an even-length string of hex digits, `decode_hex` succeeds with
half as many bytes. -/
theorem decode_hex_ok_of_hex : ∀ (s : List Char),
    (∀ c ∈ s, (hexDigit c).isSome) → s.length % 2 = 0 →
    ∃ bs, decode_hex s = PResult.ok bs ∧ bs.length = s.length / 2
  | [], _, _ => ⟨[], rfl, rfl⟩
  | [a], _, hlen => absurd hlen (by simp)
  | a :: b :: rest, h, hlen => by
    have ha := h a (by simp)
    have hb := h b (by simp)
    obtain ⟨v, hv⟩ := Option.isSome_iff_exists.mp (fromStrRadix2_isSome a b ha hb)
    have hrest : rest.length % 2 = 0 := by
      simp only [List.length_cons] at hlen
      omega
    obtain ⟨bs, hbs, hbslen⟩ := decode_hex_ok_of_hex rest
      (fun c hc => h c (by simp [hc])) hrest
    refine ⟨v :: bs, ?_, ?_⟩
    · show decode_hex (a :: b :: rest) = PResult.ok (v :: bs)
      unfold decode_hex
      rw [hv, hbs]
    · simp only [List.length_cons, hbslen]
      omega

/-- On an odd-length string of hex digits, `decode_hex` panics at the
out-of-bounds one-character tail instead of returning an error. -/
theorem decode_hex_panics_of_odd : ∀ (s : List Char),
    (∀ c ∈ s, (hexDigit c).isSome) → s.length % 2 = 1 →
    decode_hex s = PResult.panicked
  | [], _, hlen => absurd hlen (by simp)
  | [_], _, _ => rfl
  | a :: b :: rest, h, hlen => by
    have ha := h a (by simp)
    have hb := h b (by simp)
    obtain ⟨v, hv⟩ := Option.isSome_iff_exists.mp (fromStrRadix2_isSome a b ha hb)
    have hrest : rest.length % 2 = 1 := by
      simp only [List.length_cons] at hlen
      omega
    have ih := decode_hex_panics_of_odd rest
      (fun c hc => h c (by simp [hc])) hrest
    show decode_hex (a :: b :: rest) = PResult.panicked
    unfold decode_hex
    rw [hv, ih]

/-- On an even-length string containing a character that is neither a
hex digit nor `'+'`, `decode_hex` returns a decode error. -/
theorem decode_hex_err_of_bad : ∀ (s : List Char), s.length % 2 = 0 →
    (∃ c ∈ s, hexDigit c = none ∧ c ≠ '+') →
    decode_hex s = PResult.err ()
  | [], _, hbad => absurd hbad (by simp)
  | [a], hlen, _ => absurd hlen (by simp)
  | a :: b :: rest, hlen, hbad => by
    obtain ⟨c, hc, hcn, hcp⟩ := hbad
    show decode_hex (a :: b :: rest) = PResult.err ()
    unfold decode_hex
    simp only [List.mem_cons] at hc
    rcases hc with hca | hcb | hc
    · rw [fromStrRadix2_none a b c hcn hcp (Or.inl hca)]
    · rw [fromStrRadix2_none a b c hcn hcp (Or.inr hcb)]
    · cases hab : fromStrRadix2 a b with
      | none => rfl
      | some v =>
        have hrest : rest.length % 2 = 0 := by
          simp only [List.length_cons] at hlen
          omega
        rw [decode_hex_err_of_bad rest hrest ⟨c, hc, hcn, hcp⟩]

/-- C8: hex decoding of the key string.  On an even-length string of
hex digits it returns exactly half as many bytes (in particular
`"0f1a2b"` decodes to `[0x0f, 0x1a, 0x2b]`); an odd-length string of
hex digits makes the byte-slice `&s[i..i+2]` go out of bounds — a
fault, not an error return; an even-length string containing a
character that is neither a hex digit nor a leading `'+'` sign of its
2-character chunk is a decode error. -/
theorem C8_decode_hex_spec (s : List Char) :
    decode_hex "0f1a2b".toList = PResult.ok [0x0f, 0x1a, 0x2b] ∧
    ((∀ c ∈ s, (hexDigit c).isSome) → s.length % 2 = 0 →
      ∃ bs, decode_hex s = PResult.ok bs ∧ bs.length = s.length / 2) ∧
    ((∀ c ∈ s, (hexDigit c).isSome) → s.length % 2 = 1 →
      decode_hex s = PResult.panicked) ∧
    (s.length % 2 = 0 → (∃ c ∈ s, hexDigit c = none ∧ c ≠ '+') →
      decode_hex s = PResult.err ()) :=
  ⟨by decide, decode_hex_ok_of_hex s, decode_hex_panics_of_odd s,
   decode_hex_err_of_bad s⟩

/-- C8 (counterexample): the odd-length hex string `"f"` makes
`decode_hex` fault (out-of-bounds slice), not return a decode error. -/
theorem C8_counterexample : decode_hex ['f'] = PResult.panicked := by decide

theorem C8_decode_hex_spec_witness :
    (∃ bs, decode_hex "0f1a2b".toList = PResult.ok bs ∧
      bs.length = "0f1a2b".toList.length / 2) ∧
    decode_hex ['0'] = PResult.panicked ∧
    decode_hex "0x0f3b".toList = PResult.err () :=
  ⟨(C8_decode_hex_spec "0f1a2b".toList).2.1 (by decide) (by decide),
   (C8_decode_hex_spec ['0']).2.2.1 (by decide) (by decide),
   (C8_decode_hex_spec "0x0f3b".toList).2.2.2 (by decide)
     ⟨'x', by decide, by decide, by decide⟩⟩

/-! ## C9: the declared-encrypted query -/

/-- A field that resolves (absent, or present as a boolean) is read as
its value by `get_key_flag`. -/
theorem get_key_flag_of_resolves (value : List (String × JValue))
    (k : String) (v : Bool) (h : flagResolves value k v) :
    get_key_flag value k = Except.ok v := by
  unfold get_key_flag
  rcases h with ⟨h1, h2⟩ | h1
  · rw [h1, h2]
    rfl
  · rw [h1]
    rfl

/-- A present non-boolean field is a hard error in `get_key_flag`. -/
theorem get_key_flag_of_other (value : List (String × JValue))
    (k : String) (h : value.lookup k = some JValue.vOther) :
    get_key_flag value k = Except.error (.SystemJsonInvalidKey k) := by
  unfold get_key_flag
  rw [h]
  rfl

/-- C9: `check_encrypted` returns the OR of the two declared-encryption
fields, where a missing field reads as `false` and a present non-boolean
field is a hard `SystemJsonInvalidKey` error (the audio field is read
first, so its error wins). -/
theorem C9_check_encrypted_spec (doc : List (String × JValue)) :
    (∀ a b, flagResolves doc HAS_ENC_AUIDO_KEY a →
      flagResolves doc HAS_ENC_IMG_KEY b →
      check_encrypted doc = Except.ok (a || b)) ∧
    (doc.lookup HAS_ENC_AUIDO_KEY = some JValue.vOther →
      check_encrypted doc =
        Except.error (.SystemJsonInvalidKey HAS_ENC_AUIDO_KEY)) ∧
    ((∃ a, flagResolves doc HAS_ENC_AUIDO_KEY a) →
      doc.lookup HAS_ENC_IMG_KEY = some JValue.vOther →
      check_encrypted doc =
        Except.error (.SystemJsonInvalidKey HAS_ENC_IMG_KEY)) := by
  refine ⟨?_, ?_, ?_⟩
  · intro a b ha hb
    unfold check_encrypted
    rw [get_key_flag_of_resolves doc _ a ha, get_key_flag_of_resolves doc _ b hb]
  · intro h
    unfold check_encrypted
    rw [get_key_flag_of_other doc _ h]
  · rintro ⟨a, ha⟩ h
    unfold check_encrypted
    rw [get_key_flag_of_resolves doc _ a ha, get_key_flag_of_other doc _ h]

/-- A document declaring only the audio flag, as `true`. -/
def docAudioOnly : List (String × JValue) := [("hasEncryptedAudio", .vBool true)]

/-- A document whose images flag is present but not a boolean. -/
def docBadImg : List (String × JValue) :=
  [("hasEncryptedAudio", .vBool false), ("hasEncryptedImages", .vOther)]

theorem C9_check_encrypted_spec_witness :
    check_encrypted docAudioOnly = Except.ok (true || false) ∧
    check_encrypted docBadImg =
      Except.error (.SystemJsonInvalidKey HAS_ENC_IMG_KEY) :=
  ⟨(C9_check_encrypted_spec docAudioOnly).1 true false
      (Or.inr (by decide)) (Or.inl ⟨by decide, rfl⟩),
   (C9_check_encrypted_spec docBadImg).2.2
      ⟨false, Or.inr (by decide)⟩ (by decide)⟩
